import Mathlib

set_option maxRecDepth 1000000

/-!
# Verification of the NAS-Cookbook ENAS recipes

A shallow embedding, over `ℚ`, of the controller sampling and controller-update
code of the three ENAS recipes in this repository:

* Recipe 1 (`Controller`, `train_enas`, `evaluate`) — baseline REINFORCE;
* Recipe 3 (`PPOController`, `ppo_update`, `train_enas_ppo`) — PPO-style update;
* Recipe 8 (`UncertaintyAwareController`, `train_uncertainty_aware_enas`) —
  uncertainty-aware actor-critic.

Modelling conventions:
* Real-valued tensors become lists of rationals.  The transcendental functions
  `torch.exp` / `torch.log` are abstract parameters `expf logf : ℚ → ℚ`
  (they are never unfolded; the theorems below only use how the code plumbs
  them, or — for the positivity claim — an explicit positivity hypothesis
  that the true exponential satisfies).
* The recurrent `nn.LSTMCell` and the linear heads are abstract parameters:
  the LSTM input is always the constant zero vector, so one controller step
  is an abstract state transformer `σ → σ` followed by abstract linear heads.
  An `nn.Linear(hidden, NUM_OPS)` head always emits `NUM_OPS` numbers, so it
  is modelled as `σ → Fin NUM_OPS → ℚ`.
* `torch.multinomial(probs, 1)` draws one category: the draw is modelled by a
  rational from an oracle stream `rand : Nat → ℚ` (one entry per decision
  step of the global RNG stream) and the cumulative-threshold selection
  `multinomialIdx`, which always returns an index into the vector.
* Elementwise tensor arithmetic fails at runtime on non-broadcastable shapes;
  this is modelled by `Option`-valued operations (`broadcast2`): `none` is a
  raised runtime error.
* Reading an unbound Python local raises `UnboundLocalError`; the environment
  entry for such a variable is modelled as an `Option` that is `none`.
* Autograd is modelled (where a claim is about gradient flow) by forward-mode
  dual numbers `Dual`: `.val` is the tensor value, `.grad` its derivative
  with respect to an arbitrary scalar controller parameter; `detach` zeroes
  the derivative component.
-/

namespace NASCookbook

/-- Arithmetic mean of a list of rationals, `tensor.mean()`.
(On an empty list this is the junk value `0`; no theorem below relies on the
empty case.) -/
def listMean (l : List ℚ) : ℚ := l.sum / l.length

/-- Elementwise combination of two 1-D tensors with PyTorch broadcasting:
equal lengths combine pointwise, a length-one tensor broadcasts against the
other, and any other shape pair raises a runtime error (`none`). -/
def broadcast2 (f : ℚ → ℚ → ℚ) (a b : List ℚ) : Option (List ℚ) :=
  if a.length = b.length then some (List.zipWith f a b)
  else if a.length = 1 then some (b.map (f a.headI))
  else if b.length = 1 then some (a.map (fun x => f x b.headI))
  else none

/-- Model of `torch.softmax(logits, dim=-1)` with the exponential supplied as the
abstract parameter `expf`: normalise the exponentiated logits by their sum. -/
def softmax (expf : ℚ → ℚ) (logits : List ℚ) : List ℚ :=
  let exps := logits.map expf
  exps.map (· / exps.sum)

/-- Model of `torch.multinomial(probs, 1).item()`: draw one category from a
probability vector.  The random draw `r` is compared against cumulative
probability mass; the final bucket absorbs any remaining mass, so the result
is always a valid index of a nonempty vector. -/
def multinomialIdx : List ℚ → ℚ → Nat
  | [], _ => 0
  | p :: ps, r =>
    if r < p then 0
    else if ps.isEmpty then 0
    else multinomialIdx ps (r - p) + 1

/-! ## Recipe 1: Basic ENAS with parameter sharing (`Controller`, `train_enas`) -/

namespace Recipe1

/-- Constant `NUM_LAYERS = 4` (Recipe 1 constants cell). -/
def NUM_LAYERS : Nat := 4

/-- Constant `NUM_OPS = 3  # relu, tanh, identity` (Recipe 1 constants cell). -/
def NUM_OPS : Nat := 3

/-- The Recipe-1 `Controller(nn.Module)`: an `nn.LSTMCell` (whose input in
`forward` is always the zero vector, so it acts as the abstract state
transformer `lstm : σ → σ` on the hidden/cell-state pair `σ`, starting from
the all-zeros `initState`) and a `nn.Linear(hidden_size, NUM_OPS)` logit head
`linear`. -/
structure Controller (σ : Type) where
  initState : σ
  lstm : σ → σ
  linear : σ → Fin NUM_OPS → ℚ

/-- One iteration of the loop body of `Controller.forward`: advance the LSTM
on the zero input, project logits, softmax, draw the action with the `t`-th
entry of the RNG stream, and record `log(probs[0, action])`.  Returns
`(action, log_prob, next state)`. -/
def controllerStep {σ : Type} (ctl : Controller σ) (expf logf : ℚ → ℚ)
    (rand : Nat → ℚ) (s : σ) (t : Nat) : Nat × ℚ × σ :=
  let h := ctl.lstm s
  let logits := List.ofFn (ctl.linear h)
  let probs := NASCookbook.softmax expf logits
  let action := NASCookbook.multinomialIdx probs (rand t)
  (action, logf (probs.getD action 0), h)

/-- The loop of `Controller.forward`: `k` remaining iterations, current
recurrent state `s`, next global RNG index `t`.  Accumulates the `actions`
and `log_probs` lists in order. -/
def forwardAux {σ : Type} (ctl : Controller σ) (expf logf : ℚ → ℚ)
    (rand : Nat → ℚ) : Nat → σ → Nat → List Nat × List ℚ
  | 0, _, _ => ([], [])
  | k + 1, s, t =>
    let (action, lp, h) := controllerStep ctl expf logf rand s t
    let (actions, lps) := forwardAux ctl expf logf rand k h (t + 1)
    (action :: actions, lp :: lps)

/-- Method `Controller.forward(num_cells)` started at global RNG position `t0`
(the Python method always continues the global torch RNG stream; `t0` records
how many draws were consumed before this call). -/
def Controller.forwardFrom {σ : Type} (ctl : Controller σ) (expf logf : ℚ → ℚ)
    (rand : Nat → ℚ) (t0 num_cells : Nat) : List Nat × List ℚ :=
  forwardAux ctl expf logf rand num_cells ctl.initState t0

/-- Method `Controller.forward(num_cells)` at the start of the RNG stream. -/
def Controller.forward {σ : Type} (ctl : Controller σ) (expf logf : ℚ → ℚ)
    (rand : Nat → ℚ) (num_cells : Nat) : List Nat × List ℚ :=
  ctl.forwardFrom expf logf rand 0 num_cells

/-- Reference recomputation of the step-`j` logits of a forward pass started
in recurrent state `s`: the LSTM has advanced `j + 1` times when the `j`-th
logit vector is produced. -/
def logitsAt {σ : Type} (ctl : Controller σ) (s : σ) (j : Nat) : List ℚ :=
  List.ofFn (ctl.linear (ctl.lstm^[j + 1] s))

/-- Reference recomputation of the step-`j` action drawn by a forward pass
started in state `s` at RNG position `t0`. -/
def actionAt {σ : Type} (ctl : Controller σ) (expf : ℚ → ℚ) (rand : Nat → ℚ)
    (s : σ) (t0 j : Nat) : Nat :=
  NASCookbook.multinomialIdx (NASCookbook.softmax expf (logitsAt ctl s j)) (rand (t0 + j))

/-- Reference recomputation of the step-`j` log-probability recorded by a
forward pass: the log of the entry of `softmax (logitsAt j)` selected by
`actionAt j` — the same logits that generated the action. -/
def lpAt {σ : Type} (ctl : Controller σ) (expf logf : ℚ → ℚ) (rand : Nat → ℚ)
    (s : σ) (t0 j : Nat) : ℚ :=
  logf ((NASCookbook.softmax expf (logitsAt ctl s j)).getD
    (actionAt ctl expf rand s t0 j) 0)

/-! ### The `train_enas` controller phase

The "Evaluate architectures" loop of `train_enas` runs
`for _ in range(10): actions, log_probs = controller(NUM_LAYERS); ...
rewards.append(evaluate(shared_cnn, actions, val_data))`.
Each `controller(NUM_LAYERS)` call consumes `NUM_LAYERS` RNG draws, so the
`i`-th sample starts at RNG position `i * NUM_LAYERS`.  `evaluate` runs under
`torch.no_grad()` and draws nothing; it is deterministic given the frozen
shared weights (an external collaborator), so the reward of a sampled
architecture is an abstract function `acc : List Nat → ℚ` of its actions. -/

/-- The `rewards` list accumulated by the 10-sample evaluation loop. -/
def rewardsList {σ : Type} (ctl : Controller σ) (expf logf : ℚ → ℚ)
    (rand : Nat → ℚ) (acc : List Nat → ℚ) : List ℚ :=
  (List.range 10).map fun i =>
    acc (ctl.forwardFrom expf logf rand (i * NUM_LAYERS) NUM_LAYERS).1

/-- The value of the loop variable `log_probs` after the evaluation loop:
the log-probabilities of the *last* (10th) sampled architecture only. -/
def lastLogProbs {σ : Type} (ctl : Controller σ) (expf logf : ℚ → ℚ)
    (rand : Nat → ℚ) : List ℚ :=
  (ctl.forwardFrom expf logf rand (9 * NUM_LAYERS) NUM_LAYERS).2

/-- Line 139 of Recipe 1, `reward = torch.tensor(rewards) - reward.mean()`:
the right-hand side reads the local variable `reward`, whose binding state at
that point is `rewardVar`.  In `train_enas` the local `reward` is first
assigned by this very statement, so when the right-hand side is evaluated the
variable is unbound (`rewardVar = none`) and Python raises
`UnboundLocalError`. -/
def baselineLine (rewards : List ℚ) (rewardVar : Option (List ℚ)) :
    Option (List ℚ) :=
  rewardVar.map fun prior => rewards.map fun x => x - NASCookbook.listMean prior

/-- Lines 138–143 of `train_enas` ("Update controller"): run the evaluation
loop, execute line 139 in an environment where the local `reward` is unbound,
and compute `controller_loss = -(log_probs * reward).sum()`.  A raised
exception is `none`. -/
def trainEnasControllerUpdate {σ : Type} (ctl : Controller σ)
    (expf logf : ℚ → ℚ) (rand : Nat → ℚ) (acc : List Nat → ℚ) : Option ℚ := do
  let rewards := rewardsList ctl expf logf rand acc
  let log_probs := lastLogProbs ctl expf logf rand
  let reward ← baselineLine rewards none
  let prods ← NASCookbook.broadcast2 (· * ·) log_probs reward
  pure (-(prods.sum))

end Recipe1

/-! ### `evaluate` (identical function text in Recipes 1, 3 and 8)

`evaluate(model, actions, data)` loops over the dataset accumulating
`correct += (predicted == y).sum().item()` and `total += y.size(0)`, then
returns `correct / total`.  The model's per-example correctness is external
(frozen network); a batch is therefore modelled by its list of per-example
correctness booleans.  `correct` and `total` are Python `int`s, so on a
dataset with zero examples the final statement `return correct / total`
raises `ZeroDivisionError` (`none`) — it does not return NaN. -/

def evaluate (data : List (List Bool)) : Option ℚ :=
  let ct := data.foldl
    (fun (ct : Nat × Nat) batch =>
      (ct.1 + (batch.filter id).length, ct.2 + batch.length)) (0, 0)
  if ct.2 = 0 then none else some ((ct.1 : ℚ) / (ct.2 : ℚ))

/-! ## Recipe 3: ENAS with PPO (`PPOController`, `ppo_update`, `train_enas_ppo`) -/

namespace Recipe3

/-- Constant `NUM_OPS = 5` (Recipe 3 constants cell). -/
def NUM_OPS : Nat := 5

/-- Constant `NUM_NODES = 4` (Recipe 3 constants cell). -/
def NUM_NODES : Nat := 4

/-- The Recipe-3 `PPOController(nn.Module)`: an `nn.LSTMCell` on the constant
zero input (abstract state transformer `lstm` from `initState`), an actor
head `nn.Linear(hidden_size, NUM_OPS)` and a critic head
`nn.Linear(hidden_size, 1)`. -/
structure PPOController (σ : Type) where
  initState : σ
  lstm : σ → σ
  actor : σ → Fin NUM_OPS → ℚ
  critic : σ → ℚ

/-- The inner loop of `PPOController.forward` (`for _ in range(NUM_NODES*3)`):
`k` remaining steps from recurrent state `s` at global RNG position `t`.
Each step advances the LSTM, computes actor logits and a critic value,
softmaxes, draws the action, and records `log(probs[0, action])` and the
value.  Returns `(cell_actions, log_probs, values, final state)`. -/
def stepsAux {σ : Type} (ctl : PPOController σ) (expf logf : ℚ → ℚ)
    (rand : Nat → ℚ) : Nat → σ → Nat → List Nat × List ℚ × List ℚ × σ
  | 0, s, _ => ([], [], [], s)
  | k + 1, s, t =>
    let h := ctl.lstm s
    let logits := List.ofFn (ctl.actor h)
    let value := ctl.critic h
    let probs := NASCookbook.softmax expf logits
    let action := NASCookbook.multinomialIdx probs (rand t)
    let lp := logf (probs.getD action 0)
    let (as, lps, vs, sF) := stepsAux ctl expf logf rand k h (t + 1)
    (action :: as, lp :: lps, value :: vs, sF)

/-- The outer loop of `PPOController.forward` (`for _ in range(num_cells)`):
each cell contributes `NUM_NODES * 3` decision steps; `actions` collects the
per-cell action lists, while `log_probs` and `values` are flat
(`torch.stack(log_probs)` / `torch.cat(values)`). -/
def ppoForwardAux {σ : Type} (ctl : PPOController σ) (expf logf : ℚ → ℚ)
    (rand : Nat → ℚ) : Nat → σ → Nat → List (List Nat) × List ℚ × List ℚ × σ
  | 0, s, _ => ([], [], [], s)
  | n + 1, s, t =>
    let (cell_actions, lps, vs, s1) :=
      stepsAux ctl expf logf rand (NUM_NODES * 3) s t
    let (as, lps2, vs2, s2) :=
      ppoForwardAux ctl expf logf rand n s1 (t + NUM_NODES * 3)
    (cell_actions :: as, lps ++ lps2, vs ++ vs2, s2)

/-- Method `PPOController.forward(num_cells)` started at global RNG position `t0`. -/
def PPOController.forwardFrom {σ : Type} (ctl : PPOController σ)
    (expf logf : ℚ → ℚ) (rand : Nat → ℚ) (t0 num_cells : Nat) :
    List (List Nat) × List ℚ × List ℚ × σ :=
  ppoForwardAux ctl expf logf rand num_cells ctl.initState t0

/-- Method `PPOController.forward(num_cells)` at the start of the RNG stream. -/
def PPOController.forward {σ : Type} (ctl : PPOController σ)
    (expf logf : ℚ → ℚ) (rand : Nat → ℚ) (num_cells : Nat) :
    List (List Nat) × List ℚ × List ℚ × σ :=
  ctl.forwardFrom expf logf rand 0 num_cells

/-- Reference recomputation of the logits at flat decision step `j` of a PPO
forward pass started in state `s`. -/
def ppoLogitsAt {σ : Type} (ctl : PPOController σ) (s : σ) (j : Nat) : List ℚ :=
  List.ofFn (ctl.actor (ctl.lstm^[j + 1] s))

/-- Reference recomputation of the action at flat decision step `j`. -/
def ppoActionAt {σ : Type} (ctl : PPOController σ) (expf : ℚ → ℚ)
    (rand : Nat → ℚ) (s : σ) (t0 j : Nat) : Nat :=
  NASCookbook.multinomialIdx
    (NASCookbook.softmax expf (ppoLogitsAt ctl s j)) (rand (t0 + j))

/-- Reference recomputation of the recorded log-probability at flat decision
step `j`: the log of the softmax entry — from the same logits — selected by
the drawn action. -/
def ppoLpAt {σ : Type} (ctl : PPOController σ) (expf logf : ℚ → ℚ)
    (rand : Nat → ℚ) (s : σ) (t0 j : Nat) : ℚ :=
  logf ((NASCookbook.softmax expf (ppoLogitsAt ctl s j)).getD
    (ppoActionAt ctl expf rand s t0 j) 0)

/-- Reference recomputation of the critic value at flat decision step `j`. -/
def ppoValueAt {σ : Type} (ctl : PPOController σ) (s : σ) (j : Nat) : ℚ :=
  ctl.critic (ctl.lstm^[j + 1] s)

/-- Model of `torch.clamp(x, 1 - epsilon, 1 + epsilon)` on one entry. -/
def clampRatio (epsilon x : ℚ) : ℚ := max (1 - epsilon) (min x (1 + epsilon))

/-- Model of `nn.MSELoss()(a, b)`: mean of the squared elementwise difference
(broadcasting as PyTorch does; non-broadcastable shapes raise). -/
def mseLoss (a b : List ℚ) : Option ℚ :=
  (NASCookbook.broadcast2 (fun x y => (x - y) ^ 2) a b).map NASCookbook.listMean

/-- The `ppo_update` function of Recipe 3.  Note the first line of the source:
`new_actions, new_log_probs, new_values = ppo_controller(len(actions))` —
it runs a fresh forward pass (drawing fresh actions with the RNG stream
`rand`, here positioned wherever the global stream happens to be) with
`len(actions)` as the cell count, rather than re-scoring the actions passed
in; the `actions` argument is otherwise unused.  `epsilon = 0.2`. -/
def ppo_update {σ : Type} (ctl : PPOController σ) (expf logf : ℚ → ℚ)
    (rand : Nat → ℚ) (old_log_probs old_values rewards : List ℚ)
    (actions : List (List (List Nat))) (epsilon : ℚ := 1/5) : Option ℚ := do
  let fwd := ctl.forward expf logf rand actions.length
  let new_log_probs := fwd.2.1
  let new_values := fwd.2.2.1
  let diffs ← NASCookbook.broadcast2 (· - ·) new_log_probs old_log_probs
  let ratios := diffs.map expf
  let advantages ← NASCookbook.broadcast2 (· - ·) rewards old_values
  let surr1 ← NASCookbook.broadcast2 (· * ·) ratios advantages
  let surr2 ← NASCookbook.broadcast2 (· * ·) (ratios.map (clampRatio epsilon))
    advantages
  let mins ← NASCookbook.broadcast2 min surr1 surr2
  let actor_loss := -(NASCookbook.listMean mins)
  let critic_loss ← mseLoss new_values rewards
  pure (actor_loss + 1/2 * critic_loss)

/-! ### The `train_enas_ppo` collection phase

The "Evaluate architectures" loop samples 10 architectures with
`ppo_controller(len(network.cells))`; each call consumes
`len(network.cells) * NUM_NODES * 3` RNG draws, so sample `i` starts at RNG
position `i * (ncells * NUM_NODES * 3)`.  As in Recipe 1, the reward of an
architecture is an abstract function `acc` of its actions. -/

/-- The `i`-th sampled trajectory of the collection loop, for a network with
`ncells` cells. -/
def ppoSample {σ : Type} (ctl : PPOController σ) (expf logf : ℚ → ℚ)
    (rand : Nat → ℚ) (ncells i : Nat) : List (List Nat) × List ℚ × List ℚ × σ :=
  ctl.forwardFrom expf logf rand (i * (ncells * (NUM_NODES * 3))) ncells

/-- Tensor `rewards = torch.tensor(rewards)` after the collection loop. -/
def ppoRewards {σ : Type} (ctl : PPOController σ) (expf logf : ℚ → ℚ)
    (rand : Nat → ℚ) (acc : List (List Nat) → ℚ) (ncells : Nat) : List ℚ :=
  (List.range 10).map fun i => acc (ppoSample ctl expf logf rand ncells i).1

/-- Tensor `old_log_probs = torch.cat(old_log_probs_list)`: the concatenation of the
10 sampled trajectories' log-probability tensors. -/
def ppoOldLogProbs {σ : Type} (ctl : PPOController σ) (expf logf : ℚ → ℚ)
    (rand : Nat → ℚ) (ncells : Nat) : List ℚ :=
  ((List.range 10).map fun i =>
    (ppoSample ctl expf logf rand ncells i).2.1).flatten

/-- Tensor `old_values = torch.cat(old_values_list)`. -/
def ppoOldValues {σ : Type} (ctl : PPOController σ) (expf logf : ℚ → ℚ)
    (rand : Nat → ℚ) (ncells : Nat) : List ℚ :=
  ((List.range 10).map fun i =>
    (ppoSample ctl expf logf rand ncells i).2.2.1).flatten

/-- List `actions_list`: the 10 sampled architectures. -/
def ppoActionsList {σ : Type} (ctl : PPOController σ) (expf logf : ℚ → ℚ)
    (rand : Nat → ℚ) (ncells : Nat) : List (List (List Nat)) :=
  (List.range 10).map fun i => (ppoSample ctl expf logf rand ncells i).1

/-- Modelled from the spec: the re-scoring step that a faithful PPO ratio
requires but that is absent from the source — "only log-probabilities/values
for the originally *sampled* actions must be re-evaluated under the current
policy".  For one architecture the controller restarts from the zero state,
so the log-probability of original action `a` at flat decision step `j` is
the log of the softmax entry `a` of the step-`j` logits. -/
def rescoreArch {σ : Type} (ctl : PPOController σ) (expf logf : ℚ → ℚ)
    (arch : List (List Nat)) : List ℚ :=
  arch.flatten.enum.map fun ja =>
    logf ((NASCookbook.softmax expf
      (ppoLogitsAt ctl ctl.initState ja.1)).getD ja.2 0)

/-- Modelled from the spec: re-scoring all 10 originally sampled
architectures under the current policy parameters, concatenated in batch
order (the "new log-probabilities" a faithful PPO update would use). -/
def rescoreBatch {σ : Type} (ctl : PPOController σ) (expf logf : ℚ → ℚ)
    (actions_list : List (List (List Nat))) : List ℚ :=
  (actions_list.map (rescoreArch ctl expf logf)).flatten

end Recipe3

/-! ## Forward-mode dual numbers (autograd model)

A scalar tensor tracked by autograd is modelled as `⟨value, derivative⟩`
where the derivative is taken with respect to one arbitrary scalar
controller parameter.  The arithmetic mirrors what backpropagation computes
for these formulas; `.detach()` keeps the value and severs the derivative. -/

/-- A dual number: tensor value and its parameter-derivative. -/
@[ext]
structure Dual where
  val : ℚ
  grad : ℚ
deriving DecidableEq

instance : Inhabited Dual := ⟨⟨0, 0⟩⟩

instance : Add Dual := ⟨fun a b => ⟨a.val + b.val, a.grad + b.grad⟩⟩

instance : Neg Dual := ⟨fun a => ⟨-a.val, -a.grad⟩⟩

instance : Sub Dual := ⟨fun a b => ⟨a.val - b.val, a.grad - b.grad⟩⟩

instance : Mul Dual := ⟨fun a b => ⟨a.val * b.val, a.grad * b.val + a.val * b.grad⟩⟩

/-- A constant (a tensor that does not require grad) as a dual number. -/
def dOfQ (x : ℚ) : Dual := ⟨x, 0⟩

/-- Model of `.detach()`: same value, no gradient flow. -/
def dDetach (a : Dual) : Dual := ⟨a.val, 0⟩

/-- Division with the quotient rule. -/
def dDiv (a b : Dual) : Dual :=
  ⟨a.val / b.val, (a.grad * b.val - a.val * b.grad) / (b.val * b.val)⟩

/-- Mean of a list of dual scalars, `tensor.mean()` under autograd. -/
def dMean (l : List Dual) : Dual :=
  ⟨(l.map Dual.val).sum / l.length, (l.map Dual.grad).sum / l.length⟩

/-- Componentwise sum of a list of dual scalars. -/
def dSum (l : List Dual) : Dual :=
  ⟨(l.map Dual.val).sum, (l.map Dual.grad).sum⟩

/-! ## Recipe 8: Uncertainty-aware ENAS -/

namespace Recipe8

/-- Constant `NUM_OPS = 5` (Recipe 8 constants cell). -/
def NUM_OPS : Nat := 5

/-- Constant `NUM_NODES = 4` (Recipe 8 constants cell). -/
def NUM_NODES : Nat := 4

/-- Distribution `dist.Normal(mean, std)` as produced by the controller (value level). -/
structure NormalDist where
  mean : ℚ
  std : ℚ
deriving DecidableEq

instance : Inhabited NormalDist := ⟨⟨0, 1⟩⟩

/-- The Recipe-8 `UncertaintyAwareController(nn.Module)`: an `nn.LSTMCell` on
the constant zero input, an actor head, and two critic heads
`critic_mean, critic_std : nn.Linear(hidden_size, 1)` whose raw outputs are
abstract functions of the recurrent state. -/
structure UncertaintyAwareController (σ : Type) where
  initState : σ
  lstm : σ → σ
  actor : σ → Fin NUM_OPS → ℚ
  critic_mean : σ → ℚ
  critic_std : σ → ℚ

/-- The inner loop of `UncertaintyAwareController.forward`: each decision
step draws an action as in the other controllers and additionally builds
`dist.Normal(self.critic_mean(h), torch.exp(self.critic_std(h)))` — the
standard deviation is the exponential `expf` of the raw `critic_std` head
output. -/
def uaStepsAux {σ : Type} (ctl : UncertaintyAwareController σ)
    (expf logf : ℚ → ℚ) (rand : Nat → ℚ) :
    Nat → σ → Nat → List Nat × List ℚ × List NormalDist × σ
  | 0, s, _ => ([], [], [], s)
  | k + 1, s, t =>
    let h := ctl.lstm s
    let logits := List.ofFn (ctl.actor h)
    let probs := NASCookbook.softmax expf logits
    let action := NASCookbook.multinomialIdx probs (rand t)
    let lp := logf (probs.getD action 0)
    let vd : NormalDist := ⟨ctl.critic_mean h, expf (ctl.critic_std h)⟩
    let (as, lps, vds, sF) := uaStepsAux ctl expf logf rand k h (t + 1)
    (action :: as, lp :: lps, vd :: vds, sF)

/-- The outer loop of `UncertaintyAwareController.forward`: `num_cells` cells
of `NUM_NODES * 3` decisions; `log_probs` is stacked flat and `value_dists`
is the flat list of per-step Normal distributions. -/
def uaForwardAux {σ : Type} (ctl : UncertaintyAwareController σ)
    (expf logf : ℚ → ℚ) (rand : Nat → ℚ) :
    Nat → σ → Nat → List (List Nat) × List ℚ × List NormalDist × σ
  | 0, s, _ => ([], [], [], s)
  | n + 1, s, t =>
    let (cell_actions, lps, vds, s1) :=
      uaStepsAux ctl expf logf rand (NUM_NODES * 3) s t
    let (as, lps2, vds2, s2) :=
      uaForwardAux ctl expf logf rand n s1 (t + NUM_NODES * 3)
    (cell_actions :: as, lps ++ lps2, vds ++ vds2, s2)

/-- Method `UncertaintyAwareController.forward(num_cells)` started at RNG position
`t0`. -/
def UncertaintyAwareController.forwardFrom {σ : Type}
    (ctl : UncertaintyAwareController σ) (expf logf : ℚ → ℚ) (rand : Nat → ℚ)
    (t0 num_cells : Nat) : List (List Nat) × List ℚ × List NormalDist × σ :=
  uaForwardAux ctl expf logf rand num_cells ctl.initState t0

/-! ### The `train_uncertainty_aware_enas` controller update (on duals)

Lines 149–157 of Recipe 8: given the collected batch
(`rewards`, `log_probs_list`, `value_dists_list`), run

```
actor_loss = 0; critic_loss = 0
for r, lp, vd in zip(rewards, log_probs_list, value_dists_list):
    advantage = r - vd[0].mean
    actor_loss -= lp * advantage.detach()
    critic_loss -= vd[0].log_prob(r)
loss = actor_loss.mean() + 0.5 * critic_loss.mean()
```

The update is a function of the collected batch, so it is embedded with the
batch as input, on dual numbers (the per-step log-probabilities and the
Normal parameters carry gradients; the rewards are plain numbers collected
under `torch.no_grad()`).  `vd[0]` on an empty list raises (`none`); the
accumulator `actor_loss` starts as the Python int `0`, which broadcasts
against the first subtracted tensor; subsequent subtractions are elementwise
and raise on shape mismatch.  `critic_loss` stays a single scalar (shape
`(1,1)`), so `critic_loss.mean()` is `critic_loss` itself. -/

/-- A `dist.Normal` whose parameters are gradient-tracked scalars. -/
structure NormalD where
  mean : Dual
  std : Dual
deriving DecidableEq

instance : Inhabited NormalD := ⟨⟨default, default⟩⟩

/-- Model of `dist.Normal(mean, std).log_prob(x)` under autograd:
`-(x - mean)² / (2 std²) - log std - log √(2π)`; the autograd log applied to
the tracked std is the abstract `logD`, and `c` is the constant `log √(2π)`. -/
def normalLogPdf (logD : Dual → Dual) (c : ℚ) (d : NormalD) (x : Dual) : Dual :=
  -(dDiv ((x - d.mean) * (x - d.mean)) (dOfQ 2 * d.std * d.std)) - logD d.std
    - dOfQ c

/-- One batch entry: `(r, lp, vd)` as produced by `zip(rewards,
log_probs_list, value_dists_list)`. -/
abbrev UABatchEntry : Type := ℚ × List Dual × List NormalD

/-- The `for r, lp, vd in zip(...)` loop with its two accumulators.
`aAcc = none` is the initial Python int `0` (it broadcasts against the first
subtracted tensor); outer `none` is a raised exception. -/
def uaUpdateLoop (logD : Dual → Dual) (c : ℚ) :
    List UABatchEntry → Option (List Dual) → Dual →
    Option (Option (List Dual) × Dual)
  | [], aAcc, cAcc => some (aAcc, cAcc)
  | (r, lp, vd) :: rest, aAcc, cAcc =>
    match vd with
    | [] => none
    | d0 :: _ =>
      let advantage := dOfQ r - d0.mean
      let term := lp.map fun l => l * dDetach advantage
      let cAcc' := cAcc - normalLogPdf logD c d0 (dOfQ r)
      match aAcc with
      | none => uaUpdateLoop logD c rest (some (term.map fun x => -x)) cAcc'
      | some v =>
        if v.length = term.length then
          uaUpdateLoop logD c rest
            (some (List.zipWith (fun a b => a - b) v term)) cAcc'
        else none

/-- The controller update of `train_uncertainty_aware_enas`: run the loop on
the zipped batch, then `loss = actor_loss.mean() + 0.5 * critic_loss.mean()`.
If the loop never ran, `actor_loss` is still the int `0` and `.mean()` raises
an `AttributeError`; the mean of an empty tensor is NaN, also modelled as a
non-value. -/
def uaControllerUpdate (logD : Dual → Dual) (c : ℚ) (rewards : List ℚ)
    (log_probs_list : List (List Dual)) (value_dists_list : List (List NormalD)) :
    Option Dual := do
  let (aAcc, cAcc) ← uaUpdateLoop logD c
    (rewards.zip (log_probs_list.zip value_dists_list)) none (dOfQ 0)
  match aAcc with
  | none => none
  | some v =>
    if v.length = 0 then none
    else pure (dMean v + dOfQ (1/2) * cAcc)

/-- The advantage the loop computes for one batch entry:
`r - vd[0].mean` (before detaching). -/
def uaAdvantage (z : UABatchEntry) : Dual := dOfQ z.1 - z.2.2.headI.mean

/-- The tensor subtracted from `actor_loss` for one batch entry:
`lp * advantage.detach()`. -/
def uaActorTerm (z : UABatchEntry) : List Dual :=
  z.2.1.map fun l => l * dDetach (uaAdvantage z)

/-- The per-architecture critic contribution before negation:
`vd[0].log_prob(r)`. -/
def uaCriticTerm (logD : Dual → Dual) (c : ℚ) (z : UABatchEntry) : Dual :=
  normalLogPdf logD c z.2.2.headI (dOfQ z.1)

/-- Closed form of the accumulated `actor_loss` tensor: entry `j` is minus
the batch sum of the `j`-th entries of the per-entry actor terms. -/
def uaActorClosed (L : Nat) (zs : List UABatchEntry) : List Dual :=
  (List.range L).map fun j => -(dSum (zs.map fun z => (uaActorTerm z).getD j default))

/-- Closed form of the accumulated `critic_loss` scalar: minus the batch sum
of the per-architecture Gaussian log-densities. -/
def uaCriticClosed (logD : Dual → Dual) (c : ℚ) (zs : List UABatchEntry) : Dual :=
  -(dSum (zs.map (uaCriticTerm logD c)))

end Recipe8

/-! ## Concrete instantiations used by witnesses and counterexamples -/

/-- Degenerate Recipe-1 controller over the one-point state space. -/
def triv1 : Recipe1.Controller Unit := ⟨(), fun _ => (), fun _ _ => 0⟩

/-- Degenerate Recipe-3 controller whose actor head emits the distinct logits
`0, 1, 2, 3, 4` at every step. -/
def triv3 : Recipe3.PPOController Unit :=
  ⟨(), fun _ => (), fun _ i => ((i : Nat) : ℚ), fun _ => 0⟩

/-- Degenerate Recipe-8 controller over the one-point state space. -/
def triv8 : Recipe8.UncertaintyAwareController Unit :=
  ⟨(), fun _ => (), fun _ _ => 0, fun _ => 0, fun _ => 0⟩

/-! ## Supporting lemmas -/

/-- Softmax preserves length: `(softmax expf l).length = l.length`. -/
theorem softmax_length (expf : ℚ → ℚ) (logits : List ℚ) :
    (softmax expf logits).length = logits.length := by
  simp [softmax]

/-- A multinomial draw from a nonempty probability vector is a valid index. -/
theorem multinomialIdx_lt : ∀ (l : List ℚ) (r : ℚ), l ≠ [] →
    multinomialIdx l r < l.length
  | [], _, h => absurd rfl h
  | p :: ps, r, _ => by
    by_cases h1 : r < p
    · simp [multinomialIdx, h1]
    · by_cases h2 : ps.isEmpty
      · simp [multinomialIdx, h1, h2]
      · have hne : ps ≠ [] := by
          cases ps with
          | nil => simp at h2
          | cons a as => simp
        have ih := multinomialIdx_lt ps (r - p) hne
        simp [multinomialIdx, h1, h2]
        omega

/-- Lemma: `getD` applied to a tabulated list evaluates the tabulating function. -/
theorem getD_map_range {α : Type} [Inhabited α] (n : Nat) (f : Nat → α)
    (i : Nat) (h : i < n) (d : α) : ((List.range n).map f).getD i d = f i := by
  simp [List.getD, List.getElem?_map, List.getElem?_range h]

/-- Flattening a two-level tabulation (outer index `i`, `K` inner entries)
yields the flat tabulation of `K * n` entries. -/
theorem flatten_map_range {α : Type} (K : Nat) (f : Nat → α) :
    ∀ n : Nat,
    (((List.range n).map fun i => (List.range K).map fun j => f (K * i + j)).flatten)
      = (List.range (K * n)).map f
  | 0 => by simp
  | n + 1 => by
    have ih := flatten_map_range K (fun x => f (K + x)) n
    have hKn : K * (n + 1) = K + K * n := by ring
    rw [List.range_succ_eq_map, List.map_cons, List.flatten_cons, List.map_map]
    have h1 : ((List.range K).map fun j => f (K * 0 + j)) = (List.range K).map f := by
      apply List.map_congr_left
      intro j _
      simp
    have h2 : List.map ((fun i => (List.range K).map fun j => f (K * i + j)) ∘ Nat.succ)
          (List.range n)
        = (List.range n).map fun i =>
            (List.range K).map fun j => (fun x => f (K + x)) (K * i + j) := by
      apply List.map_congr_left
      intro i _
      apply List.map_congr_left
      intro j _
      simp only [Function.comp_apply, Nat.succ_eq_add_one]
      congr 1
      ring
    rw [h1, h2, ih, hKn, List.range_add, List.map_append, List.map_map]
    rfl

@[simp] theorem dual_add_val (a b : Dual) : (a + b).val = a.val + b.val := rfl

@[simp] theorem dual_add_grad (a b : Dual) : (a + b).grad = a.grad + b.grad := rfl

@[simp] theorem dual_sub_val (a b : Dual) : (a - b).val = a.val - b.val := rfl

@[simp] theorem dual_sub_grad (a b : Dual) : (a - b).grad = a.grad - b.grad := rfl

@[simp] theorem dual_neg_val (a : Dual) : (-a).val = -a.val := rfl

@[simp] theorem dual_neg_grad (a : Dual) : (-a).grad = -a.grad := rfl

@[simp] theorem dual_mul_val (a b : Dual) : (a * b).val = a.val * b.val := rfl

@[simp] theorem dual_mul_grad (a b : Dual) :
    (a * b).grad = a.grad * b.val + a.val * b.grad := rfl

/-- The `total` accumulator of `evaluate` is the total number of examples. -/
theorem evaluate_total_eq (data : List (List Bool)) :
    (data.foldl
      (fun (ct : Nat × Nat) batch =>
        (ct.1 + (batch.filter id).length, ct.2 + batch.length)) (0, 0)).2 =
      (data.map List.length).sum := by
  suffices h : ∀ (c t : Nat),
      (data.foldl
        (fun (ct : Nat × Nat) batch =>
          (ct.1 + (batch.filter id).length, ct.2 + batch.length)) (c, t)).2 =
        t + (data.map List.length).sum by
    simpa using h 0 0
  induction data with
  | nil => simp
  | cons b bs ih =>
    intro c t
    simp only [List.foldl_cons, List.map_cons, List.sum_cons, ih]
    omega

@[simp] theorem dSum_nil : dSum [] = ⟨0, 0⟩ := rfl

@[simp] theorem dSum_cons (x : Dual) (l : List Dual) :
    dSum (x :: l) = x + dSum l := by
  ext <;> simp [dSum]

namespace Recipe1

/-- Shifting the reference step by one matches advancing the start state by
one LSTM application and the RNG position by one. -/
theorem actionAt_succ {σ : Type} (ctl : Controller σ) (expf : ℚ → ℚ)
    (rand : Nat → ℚ) (s : σ) (t0 j : Nat) :
    actionAt ctl expf rand s t0 (j + 1) =
      actionAt ctl expf rand (ctl.lstm s) (t0 + 1) j := by
  simp only [actionAt, logitsAt, Function.iterate_succ_apply]
  ring_nf

/-- Characterisation of the `Controller.forward` loop: it tabulates the
reference action and log-probability sequences. -/
theorem forwardAux_eq {σ : Type} (ctl : Controller σ) (expf logf : ℚ → ℚ)
    (rand : Nat → ℚ) : ∀ (k : Nat) (s : σ) (t0 : Nat),
    forwardAux ctl expf logf rand k s t0 =
      ((List.range k).map (actionAt ctl expf rand s t0),
       (List.range k).map (lpAt ctl expf logf rand s t0))
  | 0, _, _ => rfl
  | k + 1, s, t0 => by
    have ih := forwardAux_eq ctl expf logf rand k (ctl.lstm s) (t0 + 1)
    simp only [forwardAux, controllerStep, ih, List.range_succ_eq_map,
      List.map_cons, List.map_map, Prod.mk.injEq, List.cons.injEq]
    refine ⟨⟨?_, ?_⟩, ?_, ?_⟩
    · simp [actionAt, logitsAt]
    · apply List.map_congr_left
      intro j _
      simp only [Function.comp_apply, Nat.succ_eq_add_one]
      rw [actionAt_succ]
    · simp [lpAt, actionAt, logitsAt]
    · apply List.map_congr_left
      intro j _
      simp only [Function.comp_apply, Nat.succ_eq_add_one, lpAt]
      rw [actionAt_succ]
      simp only [logitsAt, Function.iterate_succ_apply]

/-- Characterisation of `forwardFrom` as a tabulation. -/
theorem forwardFrom_eq {σ : Type} (ctl : Controller σ) (expf logf : ℚ → ℚ)
    (rand : Nat → ℚ) (t0 n : Nat) :
    ctl.forwardFrom expf logf rand t0 n =
      ((List.range n).map (actionAt ctl expf rand ctl.initState t0),
       (List.range n).map (lpAt ctl expf logf rand ctl.initState t0)) :=
  forwardAux_eq ctl expf logf rand n ctl.initState t0

/-- Every reference action is a valid operation index: the softmax vector has
`NUM_OPS` entries, and a multinomial draw from it is a valid index. -/
theorem actionAt_lt {σ : Type} (ctl : Controller σ) (expf : ℚ → ℚ)
    (rand : Nat → ℚ) (s : σ) (t0 j : Nat) :
    actionAt ctl expf rand s t0 j < NUM_OPS := by
  have hlen : (NASCookbook.softmax expf (logitsAt ctl s j)).length = NUM_OPS := by
    simp [NASCookbook.softmax_length, logitsAt, NUM_OPS]
  have h := NASCookbook.multinomialIdx_lt
    (NASCookbook.softmax expf (logitsAt ctl s j)) (rand (t0 + j))
    (by
      intro hnil
      rw [hnil] at hlen
      simp [NUM_OPS] at hlen)
  rw [hlen] at h
  exact h

end Recipe1

namespace Recipe3

/-- Step-shift identity for the reference action sequence. -/
theorem ppoActionAt_shift {σ : Type} (ctl : PPOController σ) (expf : ℚ → ℚ)
    (rand : Nat → ℚ) (s : σ) (t0 m j : Nat) :
    ppoActionAt ctl expf rand s t0 (m + j) =
      ppoActionAt ctl expf rand (ctl.lstm^[m] s) (t0 + m) j := by
  simp only [ppoActionAt, ppoLogitsAt]
  have h1 : ctl.lstm^[m + j + 1] s = ctl.lstm^[j + 1] (ctl.lstm^[m] s) := by
    rw [← Function.iterate_add_apply]
    congr 1
    omega
  have h2 : t0 + (m + j) = t0 + m + j := by omega
  rw [h1, h2]

/-- Step-shift identity for the reference log-probability sequence. -/
theorem ppoLpAt_shift {σ : Type} (ctl : PPOController σ) (expf logf : ℚ → ℚ)
    (rand : Nat → ℚ) (s : σ) (t0 m j : Nat) :
    ppoLpAt ctl expf logf rand s t0 (m + j) =
      ppoLpAt ctl expf logf rand (ctl.lstm^[m] s) (t0 + m) j := by
  simp only [ppoLpAt, ppoLogitsAt]
  have h1 : ctl.lstm^[m + j + 1] s = ctl.lstm^[j + 1] (ctl.lstm^[m] s) := by
    rw [← Function.iterate_add_apply]
    congr 1
    omega
  rw [h1, ppoActionAt_shift]

/-- Step-shift identity for the reference value sequence. -/
theorem ppoValueAt_shift {σ : Type} (ctl : PPOController σ) (s : σ) (m j : Nat) :
    ppoValueAt ctl s (m + j) = ppoValueAt ctl (ctl.lstm^[m] s) j := by
  simp only [ppoValueAt]
  rw [← Function.iterate_add_apply]
  congr 2
  omega

/-- Characterisation of the inner PPO loop: it tabulates the reference
action/log-probability/value sequences and advances the state `k` times. -/
theorem stepsAux_eq {σ : Type} (ctl : PPOController σ) (expf logf : ℚ → ℚ)
    (rand : Nat → ℚ) : ∀ (k : Nat) (s : σ) (t0 : Nat),
    stepsAux ctl expf logf rand k s t0 =
      ((List.range k).map (ppoActionAt ctl expf rand s t0),
       (List.range k).map (ppoLpAt ctl expf logf rand s t0),
       (List.range k).map (ppoValueAt ctl s),
       ctl.lstm^[k] s)
  | 0, _, _ => rfl
  | k + 1, s, t0 => by
    have ih := stepsAux_eq ctl expf logf rand k (ctl.lstm s) (t0 + 1)
    simp only [stepsAux, ih, List.range_succ_eq_map, List.map_cons,
      List.map_map, Prod.mk.injEq, List.cons.injEq]
    refine ⟨⟨?_, ?_⟩, ⟨?_, ?_⟩, ⟨?_, ?_⟩, ?_⟩
    · simp [ppoActionAt, ppoLogitsAt]
    · apply List.map_congr_left
      intro j _
      have := ppoActionAt_shift ctl expf rand s t0 1 j
      simp only [Function.comp_apply, Nat.succ_eq_add_one]
      rw [Nat.add_comm j 1, this]
      simp [Function.iterate_one]
    · simp [ppoLpAt, ppoActionAt, ppoLogitsAt]
    · apply List.map_congr_left
      intro j _
      have := ppoLpAt_shift ctl expf logf rand s t0 1 j
      simp only [Function.comp_apply, Nat.succ_eq_add_one]
      rw [Nat.add_comm j 1, this]
      simp [Function.iterate_one]
    · simp [ppoValueAt]
    · apply List.map_congr_left
      intro j _
      have := ppoValueAt_shift ctl s 1 j
      simp only [Function.comp_apply, Nat.succ_eq_add_one]
      rw [Nat.add_comm j 1, this]
      simp [Function.iterate_one]
    · rfl

/-- Characterisation of the outer PPO loop: `num_cells` cells of
`NUM_NODES * 3` decisions each, tabulating the flat reference sequences; the
per-cell action list of cell `i` holds the flat decision steps
`NUM_NODES * 3 * i + j`. -/
theorem ppoForwardAux_eq {σ : Type} (ctl : PPOController σ) (expf logf : ℚ → ℚ)
    (rand : Nat → ℚ) : ∀ (n : Nat) (s : σ) (t0 : Nat),
    ppoForwardAux ctl expf logf rand n s t0 =
      ((List.range n).map (fun i => (List.range (NUM_NODES * 3)).map
          (fun j => ppoActionAt ctl expf rand s t0 (NUM_NODES * 3 * i + j))),
       (List.range (NUM_NODES * 3 * n)).map (ppoLpAt ctl expf logf rand s t0),
       (List.range (NUM_NODES * 3 * n)).map (ppoValueAt ctl s),
       ctl.lstm^[NUM_NODES * 3 * n] s)
  | 0, s, t0 => by simp [ppoForwardAux]
  | n + 1, s, t0 => by
    have ih := ppoForwardAux_eq ctl expf logf rand n
      (ctl.lstm^[NUM_NODES * 3] s) (t0 + NUM_NODES * 3)
    have hmul : NUM_NODES * 3 * (n + 1) = NUM_NODES * 3 + NUM_NODES * 3 * n := by
      ring
    simp only [ppoForwardAux, stepsAux_eq, ih, hmul, List.range_add,
      List.map_append, List.range_succ_eq_map, List.map_cons, List.map_map,
      Prod.mk.injEq, List.cons.injEq, List.append_cancel_left_eq]
    refine ⟨⟨?_, ?_⟩, ?_, ?_, ?_⟩
    · simp
    · apply List.map_congr_left
      intro i _
      simp only [Function.comp_apply, Nat.succ_eq_add_one]
      apply List.map_congr_left
      intro j _
      have hsplit : NUM_NODES * 3 * (i + 1) + j
          = NUM_NODES * 3 + (NUM_NODES * 3 * i + j) := by ring
      have h2 := ppoActionAt_shift ctl expf rand s t0 (NUM_NODES * 3)
        (NUM_NODES * 3 * i + j)
      have h3 := ppoActionAt_shift ctl expf rand (ctl.lstm^[NUM_NODES * 3] s)
        (t0 + NUM_NODES * 3) (NUM_NODES * 3 * i) j
      rw [hsplit, h2, h3]
    · apply List.map_congr_left
      intro g _
      simp only [Function.comp_apply]
      rw [ppoLpAt_shift]
    · apply List.map_congr_left
      intro g _
      simp only [Function.comp_apply]
      rw [ppoValueAt_shift]
    · rw [Nat.add_comm, Function.iterate_add_apply]

/-- Every reference PPO action is a valid operation index. -/
theorem ppoActionAt_lt {σ : Type} (ctl : PPOController σ) (expf : ℚ → ℚ)
    (rand : Nat → ℚ) (s : σ) (t0 j : Nat) :
    ppoActionAt ctl expf rand s t0 j < NUM_OPS := by
  have hlen : (NASCookbook.softmax expf (ppoLogitsAt ctl s j)).length = NUM_OPS := by
    simp [NASCookbook.softmax_length, ppoLogitsAt, NUM_OPS]
  have h := NASCookbook.multinomialIdx_lt
    (NASCookbook.softmax expf (ppoLogitsAt ctl s j)) (rand (t0 + j))
    (by
      intro hnil
      rw [hnil] at hlen
      simp [NUM_OPS] at hlen)
  rw [hlen] at h
  exact h

end Recipe3

namespace Recipe8

/-- Every `NormalDist` emitted by the inner loop has a positive standard
deviation, provided the exponential model is positive everywhere (as the
real `torch.exp` is). -/
theorem uaStepsAux_std_pos {σ : Type} (ctl : UncertaintyAwareController σ)
    (expf logf : ℚ → ℚ) (rand : Nat → ℚ) (hexp : ∀ x, 0 < expf x) :
    ∀ (k : Nat) (s : σ) (t : Nat),
    ∀ d ∈ (uaStepsAux ctl expf logf rand k s t).2.2.1, 0 < d.std
  | 0, _, _ => by simp [uaStepsAux]
  | k + 1, s, t => by
    intro d hd
    simp only [uaStepsAux, List.mem_cons] at hd
    rcases hd with h | h
    · subst h
      exact hexp _
    · exact uaStepsAux_std_pos ctl expf logf rand hexp k (ctl.lstm s) (t + 1) d h

/-- Every `NormalDist` emitted by a full forward pass has a positive standard
deviation, for arbitrary raw `critic_std` outputs, provided the exponential
model is positive everywhere. -/
theorem uaForwardAux_std_pos {σ : Type} (ctl : UncertaintyAwareController σ)
    (expf logf : ℚ → ℚ) (rand : Nat → ℚ) (hexp : ∀ x, 0 < expf x) :
    ∀ (n : Nat) (s : σ) (t : Nat),
    ∀ d ∈ (uaForwardAux ctl expf logf rand n s t).2.2.1, 0 < d.std
  | 0, _, _ => by simp [uaForwardAux]
  | n + 1, s, t => by
    intro d hd
    simp only [uaForwardAux, List.mem_append] at hd
    rcases hd with h | h
    · exact uaStepsAux_std_pos ctl expf logf rand hexp (NUM_NODES * 3) s t d h
    · exact uaForwardAux_std_pos ctl expf logf rand hexp n _ _ d h

/-- Invariant of the `zip` loop once `actor_loss` has become a tensor `v`:
no exception is raised and the two accumulators take their closed forms. -/
theorem uaUpdateLoop_some_eq (logD : Dual → Dual) (c : ℚ) :
    ∀ (zs : List UABatchEntry) (v : List Dual) (cAcc : Dual),
    (∀ z ∈ zs, z.2.1.length = v.length) → (∀ z ∈ zs, z.2.2 ≠ []) →
    uaUpdateLoop logD c zs (some v) cAcc =
      some (some ((List.range v.length).map fun j =>
              v.getD j default -
                dSum (zs.map fun z => (uaActorTerm z).getD j default)),
            cAcc - dSum (zs.map (uaCriticTerm logD c)))
  | [], v, cAcc, _, _ => by
    simp only [uaUpdateLoop, List.map_nil, dSum_nil]
    refine congrArg some (Prod.ext (congrArg some ?_) ?_)
    · symm
      apply List.ext_getElem (by simp)
      intro i h1 h2
      have hd : v.getD i default = v[i] :=
        List.getD_eq_getElem v default h2
      simp only [List.getElem_map, List.getElem_range]
      rw [hd]
      ext <;> simp
    · ext <;> simp
  | (r, lp, vd) :: zs, v, cAcc, hlen, hne => by
    obtain ⟨d0, vd', rfl⟩ : ∃ d0 vd', vd = d0 :: vd' := by
      cases vd with
      | nil => exact absurd rfl (hne (r, lp, []) (by simp))
      | cons d0 vd' => exact ⟨d0, vd', rfl⟩
    have hlp : lp.length = v.length := hlen (r, lp, d0 :: vd') (by simp)
    have hterm : (lp.map fun l => l * dDetach (dOfQ r - d0.mean)).length
        = v.length := by simpa using hlp
    simp only [uaUpdateLoop, hterm, if_pos rfl]
    have hv' : (List.zipWith (fun a b => a - b) v
        (lp.map fun l => l * dDetach (dOfQ r - d0.mean))).length = v.length := by
      rw [List.length_zipWith, hterm]
      omega
    have ih := uaUpdateLoop_some_eq logD c zs
      (List.zipWith (fun a b => a - b) v
        (lp.map fun l => l * dDetach (dOfQ r - d0.mean)))
      (cAcc - normalLogPdf logD c d0 (dOfQ r))
      (fun z hz => by rw [hv']; exact hlen z (by simp [hz]))
      (fun z hz => hne z (by simp [hz]))
    rw [ih]
    refine congrArg some (Prod.ext (congrArg some ?_) ?_)
    · rw [hv']
      apply List.ext_getElem (by simp)
      intro i h1 h2
      simp only [List.getElem_map, List.getElem_range]
      have hiv : i < v.length := by simpa using h1
      have hzip : i < (List.zipWith (fun a b => a - b) v
          (lp.map fun l => l * dDetach (dOfQ r - d0.mean))).length := by
        rw [hv']
        exact hiv
      have h3 : (List.zipWith (fun a b => a - b) v
            (lp.map fun l => l * dDetach (dOfQ r - d0.mean))).getD i default
          = v.getD i default -
            (lp.map fun l => l * dDetach (dOfQ r - d0.mean)).getD i default := by
        rw [List.getD_eq_getElem _ default hzip, List.getD_eq_getElem v default hiv,
          List.getD_eq_getElem _ default (by rw [hterm]; exact hiv)]
        exact List.getElem_zipWith
      rw [h3]
      have hterm0 : (uaActorTerm (r, lp, d0 :: vd')).getD i default
          = (lp.map fun l => l * dDetach (dOfQ r - d0.mean)).getD i default := rfl
      simp only [List.map_cons, dSum_cons, hterm0]
      ext <;> simp <;> ring
    · have hcrit0 : uaCriticTerm logD c (r, lp, d0 :: vd')
          = normalLogPdf logD c d0 (dOfQ r) := rfl
      simp only [List.map_cons, dSum_cons, hcrit0]
      ext <;> simp <;> ring

/-- On a nonempty batch the whole `zip` loop (starting from the Python int
`0` accumulators) succeeds and produces the closed-form accumulators. -/
theorem uaUpdateLoop_eq (logD : Dual → Dual) (c : ℚ) (z0 : UABatchEntry)
    (zs : List UABatchEntry) (L : Nat)
    (hlen : ∀ z ∈ z0 :: zs, z.2.1.length = L)
    (hne : ∀ z ∈ z0 :: zs, z.2.2 ≠ []) :
    uaUpdateLoop logD c (z0 :: zs) none (dOfQ 0) =
      some (some (uaActorClosed L (z0 :: zs)),
            uaCriticClosed logD c (z0 :: zs)) := by
  obtain ⟨r, lp, vd⟩ := z0
  obtain ⟨d0, vd', rfl⟩ : ∃ d0 vd', vd = d0 :: vd' := by
    cases vd with
    | nil => exact absurd rfl (hne (r, lp, []) (by simp))
    | cons d0 vd' => exact ⟨d0, vd', rfl⟩
  have hlp : lp.length = L := hlen (r, lp, d0 :: vd') (by simp)
  simp only [uaUpdateLoop]
  have hneglen : ((lp.map fun l => l * dDetach (dOfQ r - d0.mean)).map
      fun x => -x).length = L := by simpa using hlp
  rw [uaUpdateLoop_some_eq logD c zs _ _
    (fun z hz => by rw [hneglen]; exact hlen z (by simp [hz]))
    (fun z hz => hne z (by simp [hz]))]
  refine congrArg some (Prod.ext (congrArg some ?_) ?_)
  · rw [hneglen, uaActorClosed]
    apply List.ext_getElem (by simp)
    intro i h1 h2
    simp only [List.getElem_map, List.getElem_range]
    have hiL : i < L := by simpa using h1
    have hneg : (((lp.map fun l => l * dDetach (dOfQ r - d0.mean)).map
          fun x => -x)).getD i default
        = -((lp.map fun l => l * dDetach (dOfQ r - d0.mean)).getD i default) := by
      rw [List.getD_eq_getElem _ default (by rw [hneglen]; exact hiL),
        List.getD_eq_getElem _ default (by simp [hlp]; exact hiL)]
      exact List.getElem_map _
    rw [hneg]
    have hterm0 : (uaActorTerm (r, lp, d0 :: vd')).getD i default
        = (lp.map fun l => l * dDetach (dOfQ r - d0.mean)).getD i default := rfl
    simp only [List.map_cons, dSum_cons, hterm0]
    ext <;> simp <;> ring
  · have hcrit0 : uaCriticTerm logD c (r, lp, d0 :: vd')
        = normalLogPdf logD c d0 (dOfQ r) := rfl
    simp only [uaCriticClosed, List.map_cons, dSum_cons, hcrit0]
    ext <;> simp [dOfQ] <;> ring

end Recipe8

/-! ## Claims -/

/-- C1.  The claim states that in the Baseline-REINFORCE controller update
the advantage is each sample's reward minus the mean of the current batch's
fresh rewards and the loss is minus the mean of log-probability times
advantage.  The code instead evaluates `reward.mean()` on line 139 with the
local `reward` still unbound, so every controller update raises
`UnboundLocalError` before any advantage or loss is computed, for every
controller, exponential/log model, RNG stream and reward function. -/
theorem claim_C1_baseline_update_raises {σ : Type} (ctl : Recipe1.Controller σ)
    (expf logf : ℚ → ℚ) (rand : Nat → ℚ) (acc : List Nat → ℚ) :
    Recipe1.trainEnasControllerUpdate ctl expf logf rand acc = none := rfl

/-- C2.  The claim states that the new log-probabilities of `ppo_update` are
the originally sampled actions re-scored under the current policy, with any
freshly drawn actions discarded.  In the code, the fresh forward pass
determines both the actions and the log-probabilities: at this concrete
controller (logits `0..4` at every step, so the softmax entries are
`1/15 .. 5/15`) the 10 originally sampled architectures consist of action
`0` everywhere (current-policy log-probability `1/15` per step, under the
log model `id`), while `ppo_update`'s fresh pass draws action `3` at every
one of its 120 steps and returns that fresh action's log-probability `4/15`
— so the new log-probability vector tracks the fresh actions, not the
original ones. -/
theorem claim_C2_ppo_resamples_fresh_actions :
    (triv3.forward (fun x => x + 1) id (fun _ => 1/2)
        (List.replicate 10 [List.replicate 12 (0 : Nat)]).length).1.flatten
      = List.replicate 120 3
    ∧ (triv3.forward (fun x => x + 1) id (fun _ => 1/2)
        (List.replicate 10 [List.replicate 12 (0 : Nat)]).length).2.1
      = List.replicate 120 ((4 : ℚ)/15)
    ∧ Recipe3.rescoreBatch triv3 (fun x => x + 1) id
        (List.replicate 10 [List.replicate 12 (0 : Nat)])
      = List.replicate 120 ((1 : ℚ)/15)
    ∧ (triv3.forward (fun x => x + 1) id (fun _ => 1/2)
        (List.replicate 10 [List.replicate 12 (0 : Nat)]).length).2.1
      ≠ Recipe3.rescoreBatch triv3 (fun x => x + 1) id
          (List.replicate 10 [List.replicate 12 (0 : Nat)]) := by
  have h2 : (triv3.forward (fun x => x + 1) id (fun _ => 1/2)
      (List.replicate 10 [List.replicate 12 (0 : Nat)]).length).2.1
      = List.replicate 120 ((4 : ℚ)/15) := by with_unfolding_all rfl
  have h3 : Recipe3.rescoreBatch triv3 (fun x => x + 1) id
      (List.replicate 10 [List.replicate 12 (0 : Nat)])
      = List.replicate 120 ((1 : ℚ)/15) := by with_unfolding_all rfl
  refine ⟨by with_unfolding_all rfl, h2, h3, ?_⟩
  intro h
  have h00 : ((4 : ℚ)/15) = ((1 : ℚ)/15) := by
    have hg : (List.replicate 120 ((4 : ℚ)/15)).getD 0 0
        = (List.replicate 120 ((1 : ℚ)/15)).getD 0 0 := by
      rw [← h2, ← h3, h]
    simpa using hg
  norm_num at h00

/-- C3.  In the uncertainty-aware controller update, the advantage of each
sampled architecture is its reward minus the (detached) mean of the
architecture's ValueDistribution — the first decision step's `vd[0]`, the one
distribution the loop associates with the architecture — the per-architecture
critic-loss contribution is minus the Gaussian log-density of the reward
under that distribution, and the produced loss is exactly
`mean(actor_loss) + 0.5 * mean(critic_loss)` where the accumulated
`actor_loss` tensor equals its closed form (minus the batch-summed
`lp * advantage.detach()` terms) and the accumulated scalar `critic_loss`
equals minus the batch sum of the log-densities (a scalar's `.mean()` is
itself).  The second conjunct makes the detach explicit: the gradient of each
actor term sees only the advantage's value, never its derivative. -/
theorem claim_C3_uncertainty_update_formula (logD : Dual → Dual) (c : ℚ)
    (rewards : List ℚ) (lpl : List (List Dual))
    (vdl : List (List Recipe8.NormalD)) (L : Nat)
    (h1 : lpl.length = rewards.length) (h2 : vdl.length = rewards.length)
    (h3 : rewards ≠ []) (h4 : ∀ lp ∈ lpl, lp.length = L) (h5 : 0 < L)
    (h6 : ∀ vd ∈ vdl, vd ≠ []) :
    Recipe8.uaControllerUpdate logD c rewards lpl vdl
      = some (dMean (Recipe8.uaActorClosed L (rewards.zip (lpl.zip vdl)))
          + dOfQ (1/2) * Recipe8.uaCriticClosed logD c (rewards.zip (lpl.zip vdl)))
    ∧ ∀ lp adv : Dual, (lp * dDetach adv).val = lp.val * adv.val
        ∧ (lp * dDetach adv).grad = lp.grad * adv.val := by
  constructor
  · have hzslen : (rewards.zip (lpl.zip vdl)).length = rewards.length := by
      rw [List.length_zip, List.length_zip, h1, h2]
      omega
    have hzsne : rewards.zip (lpl.zip vdl) ≠ [] := by
      intro hz
      have := hzslen
      rw [hz] at this
      simp only [List.length_nil] at this
      exact h3 (List.eq_nil_of_length_eq_zero this.symm)
    obtain ⟨z0, zs, hz0⟩ := List.exists_cons_of_ne_nil hzsne
    have hlen : ∀ z ∈ z0 :: zs, z.2.1.length = L := by
      intro z hz
      rw [← hz0] at hz
      obtain ⟨r, w⟩ := z
      obtain ⟨lp, vd⟩ := w
      have hw := (List.of_mem_zip hz).2
      exact h4 lp (List.of_mem_zip hw).1
    have hne : ∀ z ∈ z0 :: zs, z.2.2 ≠ [] := by
      intro z hz
      rw [← hz0] at hz
      obtain ⟨r, w⟩ := z
      obtain ⟨lp, vd⟩ := w
      have hw := (List.of_mem_zip hz).2
      exact h6 vd (List.of_mem_zip hw).2
    have hloop := Recipe8.uaUpdateLoop_eq logD c z0 zs L hlen hne
    have hactlen : (Recipe8.uaActorClosed L (z0 :: zs)).length = L := by
      simp [Recipe8.uaActorClosed]
    unfold Recipe8.uaControllerUpdate
    rw [hz0, hloop]
    show (if (Recipe8.uaActorClosed L (z0 :: zs)).length = 0 then none
        else some (dMean (Recipe8.uaActorClosed L (z0 :: zs))
          + dOfQ (1/2) * Recipe8.uaCriticClosed logD c (z0 :: zs))) = _
    rw [if_neg (by rw [hactlen]; omega)]
  · intro lp adv
    refine ⟨rfl, ?_⟩
    show lp.grad * adv.val + lp.val * 0 = lp.grad * adv.val
    ring

/-- Witness for C3's theorem on a concrete one-architecture batch with a
one-step trajectory. -/
theorem claim_C3_witness :
    (([[⟨1, 1⟩]] : List (List Dual)).length = ([1/2] : List ℚ).length
      ∧ ([[⟨⟨0, 1⟩, ⟨1, 0⟩⟩]] : List (List Recipe8.NormalD)).length
          = ([1/2] : List ℚ).length
      ∧ ([1/2] : List ℚ) ≠ []
      ∧ (∀ lp ∈ ([[⟨1, 1⟩]] : List (List Dual)), lp.length = 1)
      ∧ 0 < 1
      ∧ ∀ vd ∈ ([[⟨⟨0, 1⟩, ⟨1, 0⟩⟩]] : List (List Recipe8.NormalD)), vd ≠ [])
    ∧ Recipe8.uaControllerUpdate (fun d => d) 0 [1/2] [[⟨1, 1⟩]]
        [[⟨⟨0, 1⟩, ⟨1, 0⟩⟩]]
      = some (dMean (Recipe8.uaActorClosed 1
            (([1/2] : List ℚ).zip (([[⟨1, 1⟩]] : List (List Dual)).zip
              ([[⟨⟨0, 1⟩, ⟨1, 0⟩⟩]] : List (List Recipe8.NormalD)))))
          + dOfQ (1/2) * Recipe8.uaCriticClosed (fun d => d) 0
            (([1/2] : List ℚ).zip (([[⟨1, 1⟩]] : List (List Dual)).zip
              ([[⟨⟨0, 1⟩, ⟨1, 0⟩⟩]] : List (List Recipe8.NormalD))))) :=
  ⟨⟨rfl, rfl, by simp, by simp, by omega, by simp⟩,
   (claim_C3_uncertainty_update_formula (fun d => d) 0 [1/2] [[⟨1, 1⟩]]
     [[⟨⟨0, 1⟩, ⟨1, 0⟩⟩]] 1 rfl rfl (by simp) (by simp) (by omega) (by simp)).1⟩

/-- C4.  One forward pass of each sampler returns an action sequence of
exactly the configured decision count — `num_cells` decisions for the
per-layer `Controller` (called with `NUM_LAYERS` in `train_enas`), and
`num_cells` cells of `NUM_NODES * 3` decisions (hence
`num_cells × NUM_NODES × 3` flat decisions, matching the log-probability
count) for the cell-based `PPOController` — and every returned action index
is below the respective `NUM_OPS`. -/
theorem claim_C4_sampler_shape {σ1 σ3 : Type} (ctl1 : Recipe1.Controller σ1)
    (ctl3 : Recipe3.PPOController σ3) (expf1 logf1 expf3 logf3 : ℚ → ℚ)
    (rand1 rand3 : Nat → ℚ) (n1 n3 : Nat) :
    ((ctl1.forward expf1 logf1 rand1 n1).1.length = n1
      ∧ (∀ a ∈ (ctl1.forward expf1 logf1 rand1 n1).1, a < Recipe1.NUM_OPS)
      ∧ (ctl1.forward expf1 logf1 rand1 Recipe1.NUM_LAYERS).1.length
          = Recipe1.NUM_LAYERS)
    ∧ ((ctl3.forward expf3 logf3 rand3 n3).1.length = n3
      ∧ (∀ ca ∈ (ctl3.forward expf3 logf3 rand3 n3).1,
          ca.length = Recipe3.NUM_NODES * 3)
      ∧ (ctl3.forward expf3 logf3 rand3 n3).1.flatten.length
          = Recipe3.NUM_NODES * 3 * n3
      ∧ (ctl3.forward expf3 logf3 rand3 n3).2.1.length
          = Recipe3.NUM_NODES * 3 * n3
      ∧ ∀ a ∈ (ctl3.forward expf3 logf3 rand3 n3).1.flatten,
          a < Recipe3.NUM_OPS) := by
  have h1 : ctl1.forward expf1 logf1 rand1 n1
      = ((List.range n1).map (Recipe1.actionAt ctl1 expf1 rand1 ctl1.initState 0),
         (List.range n1).map (Recipe1.lpAt ctl1 expf1 logf1 rand1 ctl1.initState 0)) :=
    Recipe1.forwardFrom_eq ctl1 expf1 logf1 rand1 0 n1
  have h1L : ctl1.forward expf1 logf1 rand1 Recipe1.NUM_LAYERS
      = ((List.range Recipe1.NUM_LAYERS).map
           (Recipe1.actionAt ctl1 expf1 rand1 ctl1.initState 0),
         (List.range Recipe1.NUM_LAYERS).map
           (Recipe1.lpAt ctl1 expf1 logf1 rand1 ctl1.initState 0)) :=
    Recipe1.forwardFrom_eq ctl1 expf1 logf1 rand1 0 Recipe1.NUM_LAYERS
  have h3 : ctl3.forward expf3 logf3 rand3 n3
      = ((List.range n3).map (fun i => (List.range (Recipe3.NUM_NODES * 3)).map
            (fun j => Recipe3.ppoActionAt ctl3 expf3 rand3 ctl3.initState 0
              (Recipe3.NUM_NODES * 3 * i + j))),
         (List.range (Recipe3.NUM_NODES * 3 * n3)).map
           (Recipe3.ppoLpAt ctl3 expf3 logf3 rand3 ctl3.initState 0),
         (List.range (Recipe3.NUM_NODES * 3 * n3)).map
           (Recipe3.ppoValueAt ctl3 ctl3.initState),
         ctl3.lstm^[Recipe3.NUM_NODES * 3 * n3] ctl3.initState) :=
    Recipe3.ppoForwardAux_eq ctl3 expf3 logf3 rand3 n3 ctl3.initState 0
  have hflat : (ctl3.forward expf3 logf3 rand3 n3).1.flatten
      = (List.range (Recipe3.NUM_NODES * 3 * n3)).map
          (Recipe3.ppoActionAt ctl3 expf3 rand3 ctl3.initState 0) := by
    rw [h3]
    exact flatten_map_range (Recipe3.NUM_NODES * 3)
      (Recipe3.ppoActionAt ctl3 expf3 rand3 ctl3.initState 0) n3
  refine ⟨⟨?_, ?_, ?_⟩, ?_, ?_, ?_, ?_, ?_⟩
  · rw [h1]
    simp
  · intro a ha
    rw [h1] at ha
    obtain ⟨j, _, rfl⟩ := List.mem_map.1 ha
    exact Recipe1.actionAt_lt ctl1 expf1 rand1 ctl1.initState 0 j
  · rw [h1L]
    simp
  · rw [h3]
    simp
  · intro ca hca
    rw [h3] at hca
    obtain ⟨i, _, rfl⟩ := List.mem_map.1 hca
    simp
  · rw [hflat]
    simp
  · rw [h3]
    simp
  · intro a ha
    rw [hflat] at ha
    obtain ⟨g, _, rfl⟩ := List.mem_map.1 ha
    exact Recipe3.ppoActionAt_lt ctl3 expf3 rand3 ctl3.initState 0 g

/-- C5.  At every decision step, the log-probability each sampler records is
the log of the entry of the softmax of that step's logits selected by that
step's drawn action — recomputed here independently (`logitsAt` /
`ppoLogitsAt` replay only the deterministic recurrence) from the same logits
that generated the action. -/
theorem claim_C5_logprob_consistency {σ1 σ3 : Type}
    (ctl1 : Recipe1.Controller σ1) (ctl3 : Recipe3.PPOController σ3)
    (expf1 logf1 expf3 logf3 : ℚ → ℚ) (rand1 rand3 : Nat → ℚ)
    (n1 n3 t g : Nat) (ht : t < n1) (hg : g < Recipe3.NUM_NODES * 3 * n3) :
    (ctl1.forward expf1 logf1 rand1 n1).2.getD t 0
      = logf1 ((softmax expf1 (Recipe1.logitsAt ctl1 ctl1.initState t)).getD
          ((ctl1.forward expf1 logf1 rand1 n1).1.getD t 0) 0)
    ∧ (ctl3.forward expf3 logf3 rand3 n3).2.1.getD g 0
      = logf3 ((softmax expf3 (Recipe3.ppoLogitsAt ctl3 ctl3.initState g)).getD
          ((ctl3.forward expf3 logf3 rand3 n3).1.flatten.getD g 0) 0) := by
  have h1 : ctl1.forward expf1 logf1 rand1 n1
      = ((List.range n1).map (Recipe1.actionAt ctl1 expf1 rand1 ctl1.initState 0),
         (List.range n1).map (Recipe1.lpAt ctl1 expf1 logf1 rand1 ctl1.initState 0)) :=
    Recipe1.forwardFrom_eq ctl1 expf1 logf1 rand1 0 n1
  have h3 : ctl3.forward expf3 logf3 rand3 n3
      = ((List.range n3).map (fun i => (List.range (Recipe3.NUM_NODES * 3)).map
            (fun j => Recipe3.ppoActionAt ctl3 expf3 rand3 ctl3.initState 0
              (Recipe3.NUM_NODES * 3 * i + j))),
         (List.range (Recipe3.NUM_NODES * 3 * n3)).map
           (Recipe3.ppoLpAt ctl3 expf3 logf3 rand3 ctl3.initState 0),
         (List.range (Recipe3.NUM_NODES * 3 * n3)).map
           (Recipe3.ppoValueAt ctl3 ctl3.initState),
         ctl3.lstm^[Recipe3.NUM_NODES * 3 * n3] ctl3.initState) :=
    Recipe3.ppoForwardAux_eq ctl3 expf3 logf3 rand3 n3 ctl3.initState 0
  have hflat : (ctl3.forward expf3 logf3 rand3 n3).1.flatten
      = (List.range (Recipe3.NUM_NODES * 3 * n3)).map
          (Recipe3.ppoActionAt ctl3 expf3 rand3 ctl3.initState 0) := by
    rw [h3]
    exact flatten_map_range (Recipe3.NUM_NODES * 3)
      (Recipe3.ppoActionAt ctl3 expf3 rand3 ctl3.initState 0) n3
  constructor
  · have hact : (ctl1.forward expf1 logf1 rand1 n1).1.getD t 0
        = Recipe1.actionAt ctl1 expf1 rand1 ctl1.initState 0 t := by
      rw [h1]
      exact getD_map_range n1 _ t ht 0
    rw [hact, h1]
    show ((List.range n1).map
        (Recipe1.lpAt ctl1 expf1 logf1 rand1 ctl1.initState 0)).getD t 0 = _
    rw [getD_map_range n1 _ t ht 0]
    rfl
  · have hact : (ctl3.forward expf3 logf3 rand3 n3).1.flatten.getD g 0
        = Recipe3.ppoActionAt ctl3 expf3 rand3 ctl3.initState 0 g := by
      rw [hflat]
      exact getD_map_range _ _ g hg 0
    rw [hact, h3]
    show ((List.range (Recipe3.NUM_NODES * 3 * n3)).map
        (Recipe3.ppoLpAt ctl3 expf3 logf3 rand3 ctl3.initState 0)).getD g 0 = _
    rw [getD_map_range _ _ g hg 0]
    rfl

/-- Witness for C5's theorem at the degenerate controllers, one decision step
each. -/
theorem claim_C5_witness :
    (0 < 1 ∧ 0 < Recipe3.NUM_NODES * 3 * 1)
    ∧ (triv1.forward id id (fun _ => 0) 1).2.getD 0 0
      = id ((softmax id (Recipe1.logitsAt triv1 () 0)).getD
          ((triv1.forward id id (fun _ => 0) 1).1.getD 0 0) 0) :=
  ⟨⟨by decide, by decide⟩,
   (claim_C5_logprob_consistency triv1 triv3 id id id id (fun _ => 0)
     (fun _ => 0) 1 1 0 0 (by decide) (by decide)).1⟩

/-- C6.  Whatever raw values the `critic_std` head produces, the standard
deviation of every `ValueDistribution` returned by the uncertainty-aware
forward pass is strictly positive, because the head output passes through the
exponential — stated for any everywhere-positive exponential model, as the
real `torch.exp` is. -/
theorem claim_C6_std_positive {σ : Type}
    (ctl : Recipe8.UncertaintyAwareController σ) (expf logf : ℚ → ℚ)
    (rand : Nat → ℚ) (hexp : ∀ x, 0 < expf x) (t0 n : Nat) :
    ∀ d ∈ (ctl.forwardFrom expf logf rand t0 n).2.2.1, 0 < d.std :=
  Recipe8.uaForwardAux_std_pos ctl expf logf rand hexp n ctl.initState t0

/-- Witness for C6's theorem at a concrete positive exponential model. -/
theorem claim_C6_witness :
    (∀ x : ℚ, 0 < (fun _ : ℚ => (1 : ℚ)) x)
    ∧ ∀ d ∈ (triv8.forwardFrom (fun _ : ℚ => (1 : ℚ)) id (fun _ => 0) 0 1).2.2.1,
        0 < d.std :=
  ⟨fun _ => one_pos,
   claim_C6_std_positive triv8 (fun _ : ℚ => (1 : ℚ)) id (fun _ => 0)
     (fun _ => one_pos) 0 1⟩

/-- C7.  The claim states that a batch of equal rewards (each `0.5`) yields
zero advantages and an actor loss of exactly `0.0` after one controller
update.  On the code, the rewards collected from a constant-`0.5` evaluator
are indeed ten copies of `0.5`, but the update raises (it reads the unbound
`reward`) and never produces the loss `0.0`. -/
theorem claim_C7_equal_rewards_update_raises {σ : Type}
    (ctl : Recipe1.Controller σ) (expf logf : ℚ → ℚ) (rand : Nat → ℚ)
    (acc : List Nat → ℚ) (hacc : ∀ a, acc a = 1/2) :
    Recipe1.rewardsList ctl expf logf rand acc = List.replicate 10 (1/2)
    ∧ Recipe1.trainEnasControllerUpdate ctl expf logf rand acc = none := by
  constructor
  · simp [Recipe1.rewardsList, hacc, List.map_const']
  · rfl

/-- Witness for C7's theorem at a concrete controller and the mocked
constant-`0.5` evaluator. -/
theorem claim_C7_witness :
    (∀ a : List Nat, (fun _ : List Nat => (1 : ℚ)/2) a = 1/2)
    ∧ (Recipe1.rewardsList triv1 id id (fun _ => 0) (fun _ => 1/2)
        = List.replicate 10 (1/2)
      ∧ Recipe1.trainEnasControllerUpdate triv1 id id (fun _ => 0)
          (fun _ => 1/2) = none) :=
  ⟨fun _ => rfl,
   claim_C7_equal_rewards_update_raises triv1 id id (fun _ => 0)
     (fun _ => 1/2) (fun _ => rfl)⟩

/-- C8.  With zero examples to aggregate — in particular on an empty dataset,
or any dataset whose batches are all empty — `evaluate` raises
`ZeroDivisionError` at `return correct / total` instead of returning NaN;
and the controller phase always collects exactly 10 architectures, so the
zero-architecture case cannot arise there. -/
theorem claim_C8_empty_batch_fails :
    (∀ data : List (List Bool),
      (data.map List.length).sum = 0 → evaluate data = none)
    ∧ evaluate [] = none
    ∧ ∀ {σ : Type} (ctl : Recipe1.Controller σ) (expf logf : ℚ → ℚ)
        (rand : Nat → ℚ) (acc : List Nat → ℚ),
        (Recipe1.rewardsList ctl expf logf rand acc).length = 10 := by
  refine ⟨?_, rfl, ?_⟩
  · intro data h
    have ht := evaluate_total_eq data
    rw [h] at ht
    simp only [evaluate, ht, if_pos]
  · intro σ ctl expf logf rand acc
    simp [Recipe1.rewardsList]

/-- Witness for C8's theorem on a concrete two-batch dataset with zero
examples. -/
theorem claim_C8_witness :
    (([[], []] : List (List Bool)).map List.length).sum = 0
    ∧ evaluate [[], []] = none :=
  ⟨by decide, claim_C8_empty_batch_fails.1 [[], []] (by decide)⟩

/-- C9.  In `train_enas_ppo`, `old_log_probs` concatenates 10 trajectories of
`num_cells × NUM_NODES × 3` log-probabilities each, while `ppo_update` reruns
the controller with `len(actions) = 10` as the cell count, producing
`10 × NUM_NODES × 3` fresh log-probabilities; for any cell count other than
1 the two tensors' lengths differ (and neither is 1), so
`new_log_probs - old_log_probs` violates the elementwise shape precondition
and the whole `ppo_update` raises. -/
theorem claim_C9_ppo_shape_mismatch {σ : Type} (ctl : Recipe3.PPOController σ)
    (expf logf : ℚ → ℚ) (rand rand2 : Nat → ℚ) (acc : List (List Nat) → ℚ)
    (n : Nat) (hn : n ≠ 1) :
    (Recipe3.ppoOldLogProbs ctl expf logf rand n).length
      = 10 * (Recipe3.NUM_NODES * 3 * n)
    ∧ ((ctl.forward expf logf rand2
        (Recipe3.ppoActionsList ctl expf logf rand n).length).2.1).length
      = 10 * (Recipe3.NUM_NODES * 3)
    ∧ broadcast2 (· - ·)
        ((ctl.forward expf logf rand2
          (Recipe3.ppoActionsList ctl expf logf rand n).length).2.1)
        (Recipe3.ppoOldLogProbs ctl expf logf rand n) = none
    ∧ Recipe3.ppo_update ctl expf logf rand2
        (Recipe3.ppoOldLogProbs ctl expf logf rand n)
        (Recipe3.ppoOldValues ctl expf logf rand n)
        (Recipe3.ppoRewards ctl expf logf rand acc n)
        (Recipe3.ppoActionsList ctl expf logf rand n) (1/5) = none := by
  have hS : ∀ (t0 m : Nat), (ctl.forwardFrom expf logf rand2 t0 m).2.1.length
      = Recipe3.NUM_NODES * 3 * m := by
    intro t0 m
    have h : ctl.forwardFrom expf logf rand2 t0 m
        = ((List.range m).map (fun i => (List.range (Recipe3.NUM_NODES * 3)).map
              (fun j => Recipe3.ppoActionAt ctl expf rand2 ctl.initState t0
                (Recipe3.NUM_NODES * 3 * i + j))),
           (List.range (Recipe3.NUM_NODES * 3 * m)).map
             (Recipe3.ppoLpAt ctl expf logf rand2 ctl.initState t0),
           (List.range (Recipe3.NUM_NODES * 3 * m)).map
             (Recipe3.ppoValueAt ctl ctl.initState),
           ctl.lstm^[Recipe3.NUM_NODES * 3 * m] ctl.initState) :=
      Recipe3.ppoForwardAux_eq ctl expf logf rand2 m ctl.initState t0
    rw [h]
    simp
  have hS1 : ∀ (t0 m : Nat), (ctl.forwardFrom expf logf rand t0 m).2.1.length
      = Recipe3.NUM_NODES * 3 * m := by
    intro t0 m
    have h : ctl.forwardFrom expf logf rand t0 m
        = ((List.range m).map (fun i => (List.range (Recipe3.NUM_NODES * 3)).map
              (fun j => Recipe3.ppoActionAt ctl expf rand ctl.initState t0
                (Recipe3.NUM_NODES * 3 * i + j))),
           (List.range (Recipe3.NUM_NODES * 3 * m)).map
             (Recipe3.ppoLpAt ctl expf logf rand ctl.initState t0),
           (List.range (Recipe3.NUM_NODES * 3 * m)).map
             (Recipe3.ppoValueAt ctl ctl.initState),
           ctl.lstm^[Recipe3.NUM_NODES * 3 * m] ctl.initState) :=
      Recipe3.ppoForwardAux_eq ctl expf logf rand m ctl.initState t0
    rw [h]
    simp
  have hALlen : (Recipe3.ppoActionsList ctl expf logf rand n).length = 10 := by
    simp [Recipe3.ppoActionsList]
  have hold : (Recipe3.ppoOldLogProbs ctl expf logf rand n).length
      = 10 * (Recipe3.NUM_NODES * 3 * n) := by
    unfold Recipe3.ppoOldLogProbs
    rw [List.length_flatten, List.map_map]
    have hc : ∀ i ∈ List.range 10,
        (List.length ∘ fun i => (Recipe3.ppoSample ctl expf logf rand n i).2.1) i
          = Recipe3.NUM_NODES * 3 * n := by
      intro i _
      exact hS1 _ n
    rw [List.map_congr_left hc, List.map_const', List.length_range,
      List.sum_replicate, smul_eq_mul]
  have hfresh : ((ctl.forward expf logf rand2
      (Recipe3.ppoActionsList ctl expf logf rand n).length).2.1).length
      = 10 * (Recipe3.NUM_NODES * 3) := by
    rw [hALlen]
    show (ctl.forwardFrom expf logf rand2 0 10).2.1.length = _
    rw [hS 0 10]
    ring
  have hbc : broadcast2 (· - ·)
      ((ctl.forward expf logf rand2
        (Recipe3.ppoActionsList ctl expf logf rand n).length).2.1)
      (Recipe3.ppoOldLogProbs ctl expf logf rand n) = none := by
    have hne1 : ¬(((ctl.forward expf logf rand2
        (Recipe3.ppoActionsList ctl expf logf rand n).length).2.1).length
        = (Recipe3.ppoOldLogProbs ctl expf logf rand n).length) := by
      rw [hfresh, hold]
      simp only [Recipe3.NUM_NODES]
      omega
    have hne2 : ¬(((ctl.forward expf logf rand2
        (Recipe3.ppoActionsList ctl expf logf rand n).length).2.1).length = 1) := by
      rw [hfresh]
      simp [Recipe3.NUM_NODES]
    have hne3 : ¬((Recipe3.ppoOldLogProbs ctl expf logf rand n).length = 1) := by
      rw [hold]
      simp only [Recipe3.NUM_NODES]
      omega
    rw [broadcast2, if_neg hne1, if_neg hne2, if_neg hne3]
  refine ⟨hold, hfresh, hbc, ?_⟩
  unfold Recipe3.ppo_update
  simp only [hbc]
  rfl

/-- Witness for C9's theorem at the 8-cell network of the Recipe-3 usage
example. -/
theorem claim_C9_witness :
    (8 : Nat) ≠ 1
    ∧ (Recipe3.ppoOldLogProbs triv3 id id (fun _ => 0) 8).length
      = 10 * (Recipe3.NUM_NODES * 3 * 8) :=
  ⟨by decide,
   (claim_C9_ppo_shape_mismatch triv3 id id (fun _ => 0) (fun _ => 0)
     (fun _ => 0) 8 (by decide)).1⟩

/-- C10, counterexample.  The claim states that `train_enas` computes its
controller loss from the final sampled architecture's log-probabilities
multiplied elementwise with the 10-element centered-reward tensor.  At this
concrete controller and reward function no loss is computed at all: the
update raises before (and its loss line would itself raise on the
4-versus-10 shape mismatch). -/
theorem claim_C10_counterexample :
    Recipe1.trainEnasControllerUpdate triv1 (fun x => x + 1) id (fun _ => 0)
      (fun _ => 1/2) = none := rfl

/-- C10, amended.  The loss expression of `train_enas` indeed references only
the final (10th) sampled architecture's log-probabilities — `lastLogProbs` is
exactly the 10th trajectory's per-step log-probability sequence, of length
`NUM_LAYERS`, so the first nine trajectories never enter it — but no loss is
computed: the update raises on the unbound `reward`, and even the
spec-intended centered-reward tensor of the 10 fresh rewards cannot be
multiplied elementwise with the length-`NUM_LAYERS` log-probability tensor
(shape mismatch, `none`). -/
theorem claim_C10_amended {σ : Type} (ctl : Recipe1.Controller σ)
    (expf logf : ℚ → ℚ) (rand : Nat → ℚ) (acc : List Nat → ℚ) :
    Recipe1.lastLogProbs ctl expf logf rand
      = (List.range Recipe1.NUM_LAYERS).map
          (Recipe1.lpAt ctl expf logf rand ctl.initState (9 * Recipe1.NUM_LAYERS))
    ∧ (Recipe1.lastLogProbs ctl expf logf rand).length = Recipe1.NUM_LAYERS
    ∧ (Recipe1.rewardsList ctl expf logf rand acc).length = 10
    ∧ Recipe1.trainEnasControllerUpdate ctl expf logf rand acc = none
    ∧ broadcast2 (· * ·) (Recipe1.lastLogProbs ctl expf logf rand)
        ((Recipe1.rewardsList ctl expf logf rand acc).map
          (fun x => x - listMean (Recipe1.rewardsList ctl expf logf rand acc)))
        = none := by
  have hlast : Recipe1.lastLogProbs ctl expf logf rand
      = (List.range Recipe1.NUM_LAYERS).map
          (Recipe1.lpAt ctl expf logf rand ctl.initState (9 * Recipe1.NUM_LAYERS)) := by
    unfold Recipe1.lastLogProbs
    rw [Recipe1.forwardFrom_eq]
  refine ⟨hlast, ?_, ?_, rfl, ?_⟩
  · rw [hlast]
    simp
  · simp [Recipe1.rewardsList]
  · have h1 : (Recipe1.lastLogProbs ctl expf logf rand).length
        = Recipe1.NUM_LAYERS := by
      rw [hlast]
      simp
    have h2 : ((Recipe1.rewardsList ctl expf logf rand acc).map
        (fun x => x - listMean (Recipe1.rewardsList ctl expf logf rand acc))).length
        = 10 := by
      simp [Recipe1.rewardsList]
    simp only [broadcast2, h1, h2]
    norm_num [Recipe1.NUM_LAYERS]

end NASCookbook

